import Mathlib

/-!
Verification of the in-browser SQL lab (a DuckDB-WASM workbench UI).

The development shallowly embeds the pure logic of the repository:
column-name sanitization and de-duplication (`src/pages/Index.tsx`
`handleImportCSV`, `src/lib/duckdb.ts` `importCSVFile`), the SQL
pre-validation pass (`validateSQL`), the COPY-export query detector,
the query-cell list operations, the query-history log, the CSV import
state effects, and the issue/acknowledge ordering of batched inserts.
Strings are modelled as `List Char`; JavaScript regular expressions are
modelled by explicit decidable matchers with the same match-existence
semantics.
-/

namespace SqlLab

/-- Whitespace class: models the characters removed by JavaScript
`String.prototype.trim` and matched by `\s` in the source regexes
(ASCII whitespace, NBSP, BOM; exotic Unicode space separators are not
produced by any code path modelled here). -/
def isWS (c : Char) : Bool :=
  c = ' ' || c = '\t' || c = '\n' || c = '\r' ||
  c.val = 11 || c.val = 12 || c.val = 160 || c.val = 65279

/-- Line-terminator class: the characters NOT matched by `.` in a
JavaScript regex without the dotAll flag (LF, CR, LS, PS). -/
def isNL (c : Char) : Bool :=
  c = '\n' || c = '\r' || c.val = 8232 || c.val = 8233

/-- Model of JavaScript `s.trim()`: drop whitespace from both ends. -/
def jsTrim (l : List Char) : List Char :=
  ((l.dropWhile isWS).reverse.dropWhile isWS).reverse

/-- The character class `[a-zA-Z0-9_]` of the sanitization regex. -/
def isValidChar (c : Char) : Bool :=
  c.isAlphanum || c = '_'

/-- One step of `sanitized.replace(/[^a-zA-Z0-9_]/g, '_')`. -/
def replaceChar (c : Char) : Char :=
  if isValidChar c then c else '_'

/-- The single-quote character (kept out of string literals). -/
def sq : Char := Char.ofNat 39

/-- Decimal digit character, `digitChar d` is the digit for `d < 10`. -/
def digitChar (d : Nat) : Char := Char.ofNat (48 + d)

/-- Fuel-indexed decimal printer (structural so that the kernel can
evaluate it); models JavaScript number-to-string for naturals. -/
def natCharsAux : Nat → Nat → List Char → List Char
  | 0, _, acc => acc
  | fuel + 1, n, acc =>
    if n < 10 then digitChar n :: acc
    else natCharsAux fuel (n / 10) (digitChar (n % 10) :: acc)

/-- Decimal representation of a natural number as characters,
models the JavaScript template interpolation of a number. -/
def natChars (n : Nat) : List Char := natCharsAux (n + 1) n []

/-- The `column_<position>` fallback name used for blank headers
(`column_${idx + 1}` in the source, `n` here is already 1-based). -/
def columnFallback (n : Nat) : List Char :=
  "column_".toList ++ natChars n

/-- Test of `/^\d/` on a name: does it start with a decimal digit. -/
def startsWithDigit : List Char → Bool
  | [] => false
  | c :: _ => c.isDigit

/-- Sanitization of one declared column name, translated from
`handleImportCSV` in `src/pages/Index.tsx` (lines 300-314) and the
identical code in `importCSVFile` in `src/lib/duckdb.ts`:
`let sanitized = col && col.trim() ? col.trim() : column_(idx+1)`,
then `replace(/[^a-zA-Z0-9_]/g, '_')`, then the `/^\d/` `col_` fix.
`idx` is the 0-based position of the column. -/
def sanitizeOne (col : List Char) (idx : Nat) : List Char :=
  let sanitized := if jsTrim col = [] then columnFallback (idx + 1) else jsTrim col
  let sanitized := sanitized.map replaceChar
  if startsWithDigit sanitized then "col_".toList ++ sanitized else sanitized

/-- Sanitization mapped over the declared column list with indices,
`columns.map((col, idx) => ...)` in the source. -/
def sanitizeColumns (cols : List (List Char)) : List (List Char) :=
  cols.enum.map fun p => sanitizeOne p.2 p.1

/-- De-duplication pass, translated from `handleImportCSV` in
`src/pages/Index.tsx` (lines 316-320) and the identical code in
`importCSVFile`: for each position, count earlier occurrences of the
same name in the (pre-de-duplication) sanitized list and append
`_<count+1>` when the count is positive. -/
def dedupColumns (cols : List (List Char)) : List (List Char) :=
  cols.enum.map fun p =>
    let dups := ((cols.take p.1).filter fun c => c = p.2).length
    if 0 < dups then p.2 ++ '_' :: natChars (dups + 1) else p.2

/-- The full sanitize-then-de-duplicate pipeline applied to the
declared column names during CSV import. -/
def sanitizePipeline (cols : List (List Char)) : List (List Char) :=
  dedupColumns (sanitizeColumns cols)

/-- Modelled from the spec: the sanitization of one column name in the
order the spec states it (trim; replace invalid characters; substitute
`column_<position>` if the replacement result is empty; prefix `col_`
if it starts with a digit). Used only to compare against `sanitizeOne`,
which is translated from the source. -/
def sanitizeSpecOne (col : List Char) (idx : Nat) : List Char :=
  let r := (jsTrim col).map replaceChar
  let r := if r = [] then columnFallback (idx + 1) else r
  if startsWithDigit r then "col_".toList ++ r else r

/-! ## SQL pre-validation (`validateSQL`, `src/lib` query validator) -/

/-- Does the character list contain a double-quote anywhere. -/
def containsQuote : List Char → Bool
  | [] => false
  | c :: rest => c = '"' || containsQuote rest

/-- Matches `[^"]+"`: at least one non-quote character followed
(somewhere) by a closing double quote. -/
def nonQuoteThenQuote : List Char → Bool
  | [] => false
  | c :: rest => !(c = '"') && containsQuote rest

/-- Matches `\s*"[^"]+"` after an equals sign. -/
def eqTail (l : List Char) : Bool :=
  match l.dropWhile isWS with
  | '"' :: rest => nonQuoteThenQuote rest
  | _ => false

/-- Matches `.*?=\s*"[^"]+"`: some run of non-line-terminator
characters, then an equals sign, then a double-quoted value. -/
def dotStarEq : List Char → Bool
  | [] => false
  | c :: rest => (c = '=' && eqTail rest) || (!isNL c && dotStarEq rest)

/-- Matches `\s*.*?=\s*"[^"]+"` (the whitespace run after the first
required whitespace of `WHERE\s+`). -/
def wsDotStarEq : List Char → Bool
  | [] => false
  | c :: rest => (isWS c && wsDotStarEq rest) || dotStarEq (c :: rest)

/-- Matches `\s+.*?=\s*"[^"]+"`: at least one whitespace character
then the rest of the pattern. -/
def wsPlusDotEq : List Char → Bool
  | [] => false
  | c :: rest => isWS c && wsDotStarEq rest

/-- Does the pattern `WHERE\s+.*?=\s*"[^"]+"` (case-insensitive on the
keyword) match at the head of the list. -/
def matchWhereAt : List Char → Bool
  | c1 :: c2 :: c3 :: c4 :: c5 :: rest =>
    c1.toLower = 'w' && c2.toLower = 'h' && c3.toLower = 'e' &&
    c4.toLower = 'r' && c5.toLower = 'e' && wsPlusDotEq rest
  | _ => false

/-- Existence of a match of `/WHERE\s+.*?=\s*"([^"]+)"/gi` anywhere in
the SQL text, the test `sql.match(doubleQuotePattern)` performs in
`validateSQL`. -/
def hasWherePattern : List Char → Bool
  | [] => false
  | c :: rest => matchWhereAt (c :: rest) || hasWherePattern rest

/-- Worker for the suggestion rewrite `sql.replace(/"([^"]+)"/g, ...)`:
scans left to right; `none` is the normal state, `some pend` means a
double quote was opened and `pend` holds the (reversed) non-quote
characters read since. A closed non-empty quoted run is re-emitted
with single quotes; an immediately-closed or unclosed quote is left
untouched, as the regex engine does. -/
def sqAux : List Char → Option (List Char) → List Char
  | [], none => []
  | [], some pend => '"' :: pend.reverse
  | c :: rest, none => if c = '"' then sqAux rest (some []) else c :: sqAux rest none
  | c :: rest, some pend =>
    if c = '"' then
      if pend = [] then '"' :: sqAux rest (some [])
      else sq :: pend.reverse ++ sq :: sqAux rest none
    else sqAux rest (some (c :: pend))

/-- The suggested rewrite of the query: every double-quoted non-empty
run `"x"` is replaced by a single-quoted one. -/
def sqRewrite (l : List Char) : List Char := sqAux l none

/-- Result record of `validateSQL` (`valid`, optional `error`,
`suggestion` and `warning` fields). -/
structure ValidationResult where
  valid : Bool
  error : Option (List Char)
  suggestion : Option (List Char)
  warning : Option (List Char)
deriving DecidableEq

/-- Error text for double-quoted string literals (single quotes are
spliced in as characters to mirror the source text exactly). -/
def doubleQuoteErrorMsg : List Char :=
  "DuckDB uses single quotes (".toList ++ [sq] ++
  ") for string values, not double quotes (\")".toList

/-- Error text for the empty query. -/
def emptyQueryMsg : List Char := "Query cannot be empty".toList

/-- Error text for unmatched parentheses. -/
def parensMsg : List Char := "Unmatched parentheses in query".toList

/-- Translation of `validateSQL`: reject double-quoted string
comparisons (with a suggestion), then the empty query, then unmatched
parentheses; otherwise the query is valid. -/
def validateSQL (sql : List Char) : ValidationResult :=
  if hasWherePattern sql then
    ⟨false, some doubleQuoteErrorMsg, some (sqRewrite sql), none⟩
  else if jsTrim sql = [] then
    ⟨false, some emptyQueryMsg, none, none⟩
  else if (sql.filter fun c => c = '(').length ≠ (sql.filter fun c => c = ')').length then
    ⟨false, some parensMsg, none, none⟩
  else ⟨true, none, none, none⟩

/-! ## COPY-export detection (`handleExecuteQuery`, `src/pages/Index.tsx` line 115) -/

/-- Matches `(.+?)['"]` after the first filename character: scan
non-line-terminator characters until a quote of either kind. -/
def copyStrEnd : List Char → Bool
  | [] => false
  | c :: rest => (c = sq || c = '"') || (!isNL c && copyStrEnd rest)

/-- Matches `(.+?)['"]`: at least one non-line-terminator character
then a closing quote of either kind. -/
def copyStr : List Char → Bool
  | [] => false
  | c :: rest => !isNL c && copyStrEnd rest

/-- Matches `['"](.+?)['"]`: an opening quote of either kind then a
non-empty filename then a closing quote. -/
def copyQuote : List Char → Bool
  | [] => false
  | c :: rest => (c = sq || c = '"') && copyStr rest

/-- Matches `\s*TO\s*['"](.+?)['"]` after the closing parenthesis
(keyword case-insensitive). -/
def copyAfterParen (l : List Char) : Bool :=
  match l.dropWhile isWS with
  | t :: o :: rest => t.toLower = 't' && o.toLower = 'o' && copyQuote (rest.dropWhile isWS)
  | _ => false

/-- Matches `(.*?)\)` then the `TO` clause: the inner query is a run of
non-line-terminator characters up to a closing parenthesis. -/
def copyInner : List Char → Bool
  | [] => false
  | c :: rest => (c = ')' && copyAfterParen rest) || (!isNL c && copyInner rest)

/-- Matches `\s*\(` then the inner query and `TO` clause. -/
def copyParen : List Char → Bool
  | [] => false
  | c :: rest => if isWS c then copyParen rest else c = '(' && copyInner rest

/-- Does `COPY\s*\((.*?)\)\s*TO\s*['"](.+?)['"]` (case-insensitive)
match at the head of the list. -/
def matchCopyAt : List Char → Bool
  | c1 :: c2 :: c3 :: c4 :: rest =>
    c1.toLower = 'c' && c2.toLower = 'o' && c3.toLower = 'p' &&
    c4.toLower = 'y' && copyParen rest
  | _ => false

/-- Existence of a match of the COPY-export pattern anywhere in the
query, the test `cell.query.match(/COPY\s*\((.*?)\)\s*TO\s*['"](.+?)['"]/i)`
performs in `handleExecuteQuery`. -/
def isCopyQuery : List Char → Bool
  | [] => false
  | c :: rest => matchCopyAt (c :: rest) || isCopyQuery rest

/-! ## Query history (`handleExecuteQuery`, `src/pages/Index.tsx` lines 171-205) -/

/-- One history log entry: `{id, query, timestamp, success, rowCount?,
executionTime?}` from `QueryHistory.tsx`. Timestamps are modelled as
naturals (milliseconds), the `id` is the stringified timestamp as in
`Date.now().toString()`. -/
structure QueryHistoryItem where
  id : List Char
  query : List Char
  timestamp : Nat
  success : Bool
  rowCount : Option Nat
  executionTime : Option Nat
deriving DecidableEq

/-- The entry appended for one execution: on success the row count and
duration are recorded, on failure only the failed flag. -/
def mkHistoryItem (q : List Char) (ts : Nat) (outcome : Except (List Char) Nat)
    (dur : Nat) : QueryHistoryItem :=
  match outcome with
  | .ok n => ⟨natChars ts, q, ts, true, some n, some dur⟩
  | .error _ => ⟨natChars ts, q, ts, false, none, none⟩

/-- History effect of `handleExecuteQuery` on one run of a cell whose
query is `q`: the COPY-export branch returns before either
`setQueryHistory` call, every other run appends exactly one entry
(success and failure paths both append). -/
def historyAfterExecute (h : List QueryHistoryItem) (q : List Char) (ts : Nat)
    (outcome : Except (List Char) Nat) (dur : Nat) : List QueryHistoryItem :=
  if isCopyQuery q then h else h ++ [mkHistoryItem q ts outcome dur]

/-- The only other history operation, `onClearHistory`:
`setQueryHistory([])`. -/
def clearHistory : List QueryHistoryItem := []

/-! ## Query cells (`src/pages/Index.tsx` lines 17-22 and 211-235) -/

/-- A result row as presented to the cell: ordered column/value pairs. -/
abbrev ResultRow := List (List Char × Option (List Char))

/-- One query cell `{id, query, results, isExecuting}`. -/
structure Cell where
  id : List Char
  query : List Char
  results : List ResultRow
  isExecuting : Bool
deriving DecidableEq

/-- `handleDeleteCell`: refuse to delete when only one cell remains,
otherwise remove every cell with the given id. -/
def handleDeleteCell (cells : List Cell) (cellId : List Char) : List Cell :=
  if cells.length = 1 then cells else cells.filter fun c => ¬(c.id = cellId)

/-- `handleAddCell`: append a fresh empty cell (its id is
`Date.now().toString()` in the source, passed in here). -/
def handleAddCell (cells : List Cell) (newId : List Char) : List Cell :=
  cells ++ [⟨newId, [], [], false⟩]

/-- `handleUpdateCellQuery`: rewrite the query of the matching cell. -/
def handleUpdateCellQuery (cells : List Cell) (cellId q : List Char) : List Cell :=
  cells.map fun c => if c.id = cellId then ⟨c.id, q, c.results, c.isExecuting⟩ else c

/-- First `setCells` of `handleExecuteQuery`: mark the matching cell
executing. -/
def setCellExecuting (cells : List Cell) (cellId : List Char) (b : Bool) : List Cell :=
  cells.map fun c => if c.id = cellId then ⟨c.id, c.query, c.results, b⟩ else c

/-- Second `setCells` of `handleExecuteQuery`: store the results on the
matching cell and clear its executing flag. -/
def setCellResults (cells : List Cell) (cellId : List Char) (rs : List ResultRow) : List Cell :=
  cells.map fun c => if c.id = cellId then ⟨c.id, c.query, rs, false⟩ else c

/-! ## Insert batching and its issue/acknowledge order
(`handleImportCSV` batch loop, `src/pages/Index.tsx` lines 346-361;
fallback chunk path of `importCSVFile`, `src/lib/duckdb.ts` lines
126-153) -/

/-- Fuel-indexed chunking worker; the fuel is an upper bound on the
number of chunks (structural so the kernel can evaluate it). -/
def chunksOfAux {α : Type} : Nat → Nat → List α → List (List α)
  | 0, _, _ => []
  | _, _, [] => []
  | fuel + 1, b, l => l.take b :: chunksOfAux fuel b (l.drop b)

/-- The batches produced by `for (let i = 0; i < data.length; i += batchSize)
{ const batch = data.slice(i, i + batchSize); ... }`: consecutive
slices of size `b` (the last one possibly shorter). -/
def chunksOf {α : Type} (b : Nat) (l : List α) : List (List α) :=
  chunksOfAux l.length b l

/-- An engine interaction event for one insert batch: the statement is
issued (`connection.query(...)` / `executeQuery(...)` is called) and
later acknowledged (its promise resolves). -/
inductive BatchEvent (α : Type) where
  | issue (b : α)
  | ack (b : α)
deriving DecidableEq

/-- Worker for `seqOK`: `out` counts issued-but-unacknowledged
statements; issuing is only in order when nothing is outstanding. -/
def seqOKAux {α : Type} : Nat → List (BatchEvent α) → Bool
  | _, [] => true
  | out, .issue _ :: rest => out = 0 && seqOKAux (out + 1) rest
  | out, .ack _ :: rest => seqOKAux (out - 1) rest

/-- Strict sequentiality of a trace: no statement is issued while a
previous one is still unacknowledged (so batch N+1 is only sent after
batch N's insert completed). -/
def seqOK {α : Type} (tr : List (BatchEvent α)) : Bool := seqOKAux 0 tr

/-- Trace of an awaited loop: each batch is issued and awaited before
the next loop iteration starts (`await executeQuery(...)` inside the
`for` loop of `handleImportCSV`). -/
def seqTrace {α : Type} (bs : List α) : List (BatchEvent α) :=
  bs.flatMap fun b => [.issue b, .ack b]

/-- Engine-interaction trace of the in-memory import path of
`handleImportCSV` for row set `rows` and batch size `b`. -/
def handleImportTrace {α : Type} (rows : List α) (b : Nat) : List (BatchEvent (List α)) :=
  seqTrace (chunksOf b rows)

/-- Engine-interaction trace of the chunked fallback path of
`importCSVFile`: every batch statement is pushed unawaited
(`insertPromises.push(connection.query(q))`) as parsing proceeds, and
all are awaited together by `Promise.all(insertPromises)` in the
`complete` callback. -/
def importCSVFileTrace {α : Type} (bs : List α) : List (BatchEvent α) :=
  bs.map .issue ++ bs.map .ack

/-- Final content of a freshly created table after the batched insert
loop: each batch statement appends its rows. -/
def importBatched {α : Type} (rows : List α) (b : Nat) : List α :=
  (chunksOf b rows).foldl (fun acc batch => acc ++ batch) []

/-- Modelled from the spec: the single unbatched INSERT baseline the
spec compares against (`a single unbatched insert` of all rows); not
present in the source, which always batches. -/
def importUnbatched {α : Type} (rows : List α) : List α := rows

/-! ## Database model and the CSV import paths
(`handleImportCSV` in `src/pages/Index.tsx`, `importCSVFile` fallback
in `src/lib/duckdb.ts`, `handleImport` in `CSVImporter.tsx`) -/

/-- A parsed CSV scalar: `null`, a string, an integral number, a
non-integral number (payload abstracted), or a date. -/
inductive CSVValue where
  | nullv
  | str (s : List Char)
  | intv (n : Int)
  | floatv
  | datev
deriving DecidableEq

/-- One parsed row: ordered header/value pairs as PapaParse produces
with `header: true`; a missing key models `undefined`. -/
abbrev CSVRecord := List (List Char × CSVValue)

/-- Column types the importer can declare. -/
inductive ColType where
  | integer
  | double
  | timestamp
  | varchar
deriving DecidableEq

/-- A table: declared columns (name and type) and inserted rows. -/
structure Table where
  cols : List (List Char × ColType)
  rows : List (List CSVValue)
deriving DecidableEq

/-- The database catalog: tables by name. -/
abbrev DB := List (List Char × Table)

/-- Catalog lookup, the `SELECT name FROM sqlite_master WHERE ...`
existence probe. -/
def lookupTable (db : DB) (name : List Char) : Option Table := db.lookup name

/-- `DROP TABLE IF EXISTS "name"`. -/
def dropTable (db : DB) (name : List Char) : DB :=
  db.filter fun p => ¬(p.1 = name)

/-- `CREATE TABLE "name" (...)`: appends an empty table. -/
def createTable (db : DB) (name : List Char) (cols : List (List Char × ColType)) : DB :=
  db ++ [(name, ⟨cols, []⟩)]

/-- `CREATE TABLE IF NOT EXISTS "name" (...)`: creates only when the
name is absent from the catalog. -/
def createTableIfNotExists (db : DB) (name : List Char) (cols : List (List Char × ColType)) : DB :=
  if (lookupTable db name).isSome then db else createTable db name cols

/-- One INSERT statement appending `vals` to the named table. -/
def insertRows (db : DB) (name : List Char) (vals : List (List CSVValue)) : DB :=
  db.map fun p => if p.1 = name then (p.1, ⟨p.2.cols, p.2.rows ++ vals⟩) else p

/-- The `tableName.replace(/"/g, '""')` escaping used to splice the
table name into the catalog probe. -/
def escQuotes (l : List Char) : List Char :=
  l.flatMap fun c => if c = '"' then ['"', '"'] else [c]

/-- Field access `row[originalCol]` on a parsed record. -/
def lookupRec (r : CSVRecord) (col : List Char) : Option CSVValue := r.lookup col

/-- `data.find(row => row[c] !== null && row[c] !== undefined)?.[c]`:
the first present non-null value of a column across the row set. -/
def firstNonNull : List CSVRecord → List Char → Option CSVValue
  | [], _ => none
  | r :: rest, col =>
    match lookupRec r col with
    | some v => if v = .nullv then firstNonNull rest col else some v
    | none => firstNonNull rest col

/-- Single-sample type inference of `handleImportCSV`: integral number
to INTEGER, other number to DOUBLE, `Date` to TIMESTAMP, anything else
(or nothing found) to VARCHAR. -/
def inferColType (data : List CSVRecord) (origCol : List Char) : ColType :=
  match firstNonNull data origCol with
  | some (.intv _) => .integer
  | some .floatv => .double
  | some .datev => .timestamp
  | _ => .varchar

/-- The VALUES tuple of one row: the value under each original column
name, `NULL` for null or missing (`val === null || val === undefined`). -/
def rowValues (columns : List (List Char)) (r : CSVRecord) : List CSVValue :=
  columns.map fun c =>
    match lookupRec r c with
    | none => .nullv
    | some v => v

/-- The `Table '<name>' already exists. ...` error thrown by
`handleImportCSV` (single quotes spliced as characters). -/
def tableExistsMsg (tableName : List Char) : List Char :=
  "Table ".toList ++ [sq] ++ tableName ++ [sq] ++
  " already exists. Please delete it first or choose a different name.".toList

/-- Create-and-insert tail of the in-memory path of `handleImportCSV`:
sanitize and de-duplicate the declared columns, infer types (or force
VARCHAR), create the table and insert the rows in batches of 1000. -/
def importRowsInto (db : DB) (tableName : List Char) (data : List CSVRecord)
    (columns : List (List Char)) (allVarchar : Bool) : DB :=
  let uniqueColumns := sanitizePipeline columns
  let colDefs := uniqueColumns.enum.map fun p =>
    (p.2, if allVarchar then ColType.varchar else inferColType data (columns.getD p.1 []))
  let db2 := createTable db tableName colDefs
  (chunksOf 1000 (data.map (rowValues columns))).foldl
    (fun acc batch => insertRows acc tableName batch) db2

/-- One `chunk` callback of the fallback path of `importCSVFile`: the
chunk's rows are turned into VALUES tuples keyed by the chunk's own
header keys and pushed as INSERT statements in batches of 500. -/
def importChunk (db : DB) (safeName : List Char) (chunk : List CSVRecord) : DB :=
  match chunk with
  | [] => db
  | r0 :: _ =>
    let rawCols := r0.map Prod.fst
    let vals := chunk.map (rowValues rawCols)
    (chunksOf 500 vals).foldl (fun acc batch => insertRows acc safeName batch) db

/-- Chunk loop of `importCSVFile`: on the first non-empty chunk the
sanitized, de-duplicated header names become TEXT columns of a
`CREATE TABLE IF NOT EXISTS`, then every chunk's rows are inserted. -/
def importCSVFileGo : DB → List Char → Bool → List (List CSVRecord) → DB
  | db, _, _, [] => db
  | db, safeName, created, chunk :: rest =>
    match chunk with
    | [] => importCSVFileGo db safeName created rest
    | r0 :: _ =>
      if created then
        importCSVFileGo (importChunk db safeName chunk) safeName true rest
      else
        let rawCols := r0.map Prod.fst
        let cols := sanitizePipeline rawCols
        let db2 := createTableIfNotExists db safeName (cols.map fun c => (c, ColType.varchar))
        importCSVFileGo (importChunk db2 safeName chunk) safeName true rest

/-- The fallback (client-side chunked) path of `importCSVFile`: the
table name has invalid characters replaced by underscores, then the
chunk loop runs. There is no table-existence check on this path. -/
def importCSVFile (db : DB) (tableName : List Char) (chunks : List (List CSVRecord)) : DB :=
  importCSVFileGo db (tableName.map replaceChar) false chunks

/-- The `data` argument of `handleImportCSV`: either a single `File`
(already parsed here into chunks) taking the large-file path, or the
in-memory array of parsed rows. -/
inductive ImportData where
  | file (chunks : List (List CSVRecord))
  | rows (rs : List CSVRecord)

/-- Translation of `handleImportCSV` (`src/pages/Index.tsx` lines
274-370). The pair is the database after all statements that ran plus
the thrown error, if any. The `File` branch drops the table when
`overwrite` is set and otherwise goes straight to `importCSVFile`
without any existence check; the rows branch probes the catalog for
the quote-escaped table name and throws the `table exists` error when
the table is present and `overwrite` is false. -/
def handleImportCSV (db : DB) (tableName : List Char) (data : ImportData)
    (columns : List (List Char)) (overwrite allVarchar : Bool) :
    DB × Option (List Char) :=
  match data with
  | .file chunks =>
    let db2 := if overwrite then dropTable db tableName else db
    (importCSVFile db2 tableName chunks, none)
  | .rows rs =>
    if (lookupTable db (escQuotes tableName)).isSome then
      if overwrite then
        (importRowsInto (dropTable db tableName) tableName rs columns allVarchar, none)
      else (db, some (tableExistsMsg tableName))
    else (importRowsInto db tableName rs columns allVarchar, none)

/-- A PapaParse result as `handleImport` of the CSV importer dialog
receives it: parse errors, data rows, and the header fields. -/
structure ParseResult where
  errors : List (List Char)
  data : List CSVRecord
  fields : List (List Char)

/-- The `CSV file is empty` rejection text. -/
def csvFileIsEmptyMsg : List Char := "CSV file is empty".toList

/-- Translation of `handleImport` in the CSV importer dialog
(`CSVImporter.tsx` / its enhanced variant): a parse error aborts, an
empty row set aborts with the `CSV file is empty` error before
`onImport` is called, otherwise the data is handed to
`handleImportCSV` and its error, if any, is surfaced with the
`Failed to import: ` prefix. -/
def csvHandleImport (db : DB) (tableName : List Char) (parsed : ParseResult)
    (overwrite allVarchar : Bool) : DB × Option (List Char) :=
  match parsed.errors with
  | e :: _ => (db, some ("Error parsing CSV: ".toList ++ e))
  | [] =>
    if parsed.data = [] then (db, some csvFileIsEmptyMsg)
    else
      match handleImportCSV db tableName (.rows parsed.data) parsed.fields overwrite allVarchar with
      | (db2, some msg) => (db2, some ("Failed to import: ".toList ++ msg))
      | (db2, none) => (db2, none)

/-! ## Demonstration inputs used by closed theorems -/

/-- A table with one TEXT column and one row, used as an existing
catalog entry. -/
def demoTable : Table := ⟨[(['a'], ColType.varchar)], [[CSVValue.str ['x']]]⟩

/-- A catalog already containing table `t`. -/
def demoDB : DB := [(['t'], demoTable)]

/-- One parsed record with column `a`. -/
def demoRec : CSVRecord := [(['a'], CSVValue.str ['z'])]

/-- A query containing a double-quoted string comparison,
`SELECT * FROM t WHERE x = "y"`. -/
def demoSQL : List Char := "SELECT * FROM t WHERE x = \"y\"".toList

/-- The same query with the double quotes rewritten to single quotes. -/
def demoSQLFixed : List Char :=
  "SELECT * FROM t WHERE x = ".toList ++ [sq] ++ 'y' :: [sq]

/-- A COPY-export query, `COPY (SELECT 1) TO 'f.csv'`. -/
def demoCopyQuery : List Char :=
  "COPY (SELECT 1) TO ".toList ++ [sq] ++ "f.csv".toList ++ [sq]

/-- The PapaParse `UndetectableDelimiter` message a zero-byte file
produces (delimiter auto-detection cannot succeed on empty input);
single quotes spliced as characters. -/
def undetectableDelimiterMsg : List Char :=
  "Unable to auto-detect delimiting character; defaulted to ".toList ++
    [sq] ++ ',' :: [sq]

/-- The parse result of a zero-byte CSV file: a delimiter-detection
error, zero data rows, no header fields. -/
def emptyFileParse : ParseResult := ⟨[undetectableDelimiterMsg], [], []⟩

/-- A query cell with id `5`. -/
def dupCell : Cell := ⟨['5'], [], [], false⟩

/-- A query cell with id `7`. -/
def otherCell : Cell := ⟨['7'], [], [], false⟩

/-! ## Helper lemmas on the character-level functions -/

theorem digitChar_valid {d : Nat} (hd : d < 10) : isValidChar (digitChar d) = true := by
  interval_cases d <;> decide

theorem natCharsAux_valid :
    ∀ (fuel n : Nat) (acc : List Char), (∀ c ∈ acc, isValidChar c = true) →
      ∀ c ∈ natCharsAux fuel n acc, isValidChar c = true := by
  intro fuel
  induction fuel with
  | zero => intro n acc hacc c hc; exact hacc c hc
  | succ f ih =>
    intro n acc hacc c hc
    unfold natCharsAux at hc
    by_cases h : n < 10
    · simp only [if_pos h, List.mem_cons] at hc
      rcases hc with rfl | hc
      · exact digitChar_valid h
      · exact hacc c hc
    · simp only [if_neg h] at hc
      refine ih (n / 10) _ ?_ c hc
      intro c hc
      rcases List.mem_cons.mp hc with rfl | hc
      · exact digitChar_valid (Nat.mod_lt _ (by norm_num))
      · exact hacc c hc

theorem natChars_valid (n : Nat) : ∀ c ∈ natChars n, isValidChar c = true :=
  natCharsAux_valid (n + 1) n [] (by simp)

theorem map_replaceChar_of_valid :
    ∀ {l : List Char}, (∀ c ∈ l, isValidChar c = true) → l.map replaceChar = l := by
  intro l
  induction l with
  | nil => intro _; rfl
  | cons c t ih =>
    intro h
    have hc : replaceChar c = c := by
      simp [replaceChar, h c (List.mem_cons_self c t)]
    simp only [List.map_cons, hc, List.cons.injEq, true_and]
    exact ih fun x hx => h x (List.mem_cons_of_mem _ hx)

theorem map_replaceChar_columnFallback (n : Nat) :
    (columnFallback n).map replaceChar = columnFallback n := by
  refine map_replaceChar_of_valid ?_
  intro c hc
  rcases List.mem_append.mp hc with hc | hc
  · have : "column_".toList = ['c', 'o', 'l', 'u', 'm', 'n', '_'] := rfl
    rw [this] at hc
    fin_cases hc <;> decide
  · exact natChars_valid n c hc

theorem startsWithDigit_columnFallback (n : Nat) :
    startsWithDigit (columnFallback n) = false := rfl

/-- C4: the sanitization of one declared column name is exactly the
spec's pipeline: trim; replace every character outside `[A-Za-z0-9_]`
with `_`; substitute `column_<position>` (1-based) when the
replacement result is empty; prefix `col_` when it starts with a
digit. (The source checks emptiness before the replacement, but the
replacement maps characters one to one, so emptiness is unchanged and
the two orders agree on every input.) -/
theorem sanitizeOne_eq_spec (col : List Char) (idx : Nat) :
    sanitizeOne col idx = sanitizeSpecOne col idx := by
  by_cases h : jsTrim col = []
  · simp [sanitizeOne, sanitizeSpecOne, h, map_replaceChar_columnFallback,
      startsWithDigit_columnFallback]
  · have hmap : (jsTrim col).map replaceChar ≠ [] := by
      simpa [List.map_eq_nil_iff] using h
    simp [sanitizeOne, sanitizeSpecOne, h, hmap]

/-- C1: the de-duplication pass does NOT always return a
duplicate-free list. On the sanitized input `[a, a, a_2]` the second
`a` is renamed to `a_2`, which collides with the third column's
untouched name `a_2`, so the output `[a, a_2, a_2]` contains a
duplicate — contradicting the code's own `// Ensure unique column
names` comment. The first occurrence is kept unchanged and the repeat
is suffixed `_2` as claimed; only the no-duplicates guarantee fails. -/
theorem sanitizePipeline_duplicate_collision :
    sanitizePipeline [['a'], ['a'], ['a', '_', '2']] =
      [['a'], ['a', '_', '2'], ['a', '_', '2']] ∧
    ¬ (sanitizePipeline [['a'], ['a'], ['a', '_', '2']]).Nodup := by
  constructor
  · decide
  · decide

/-- C3: the sanitize-then-de-duplicate pipeline is NOT idempotent. On
`[b, b, b_2]` the first application returns `[b, b_2, b_2]` (the
de-duplication collision of C1), and a second application renames the
third name again, giving `[b, b_2, b_2_2]`. -/
theorem sanitizePipeline_not_idempotent :
    sanitizePipeline (sanitizePipeline [['b'], ['b'], ['b', '_', '2']]) ≠
      sanitizePipeline [['b'], ['b'], ['b', '_', '2']] := by
  decide

/-! ## Batch-ordering lemmas -/

theorem seqOKAux_ack_cons {α : Type} (out : Nat) (b : α) (tr : List (BatchEvent α)) :
    seqOKAux out (.ack b :: tr) = seqOKAux (out - 1) tr := rfl

theorem seqOK_seqTrace {α : Type} (bs : List α) : seqOK (seqTrace bs) = true := by
  induction bs with
  | nil => rfl
  | cons b t ih =>
    simp only [seqTrace, List.flatMap_cons] at ih ⊢
    simpa [seqOK, seqOKAux] using ih

/-- C2 (counterexample): on the chunked fallback path of
`importCSVFile` the insert statement of batch 1 is issued before batch
0's insert has been acknowledged — with two batches the trace is
issue, issue, ack, ack, which is not strictly sequential. -/
theorem importCSVFile_trace_not_sequential :
    importCSVFileTrace [(0 : Nat), 1] =
      [.issue 0, .issue 1, .ack 0, .ack 1] ∧
    seqOK (importCSVFileTrace [(0 : Nat), 1]) = false := by
  constructor
  · decide
  · decide

/-- C2 (amended): insert batches are issued strictly sequentially on
the in-memory import path of `handleImportCSV` (each batch is awaited
before the next is sent), but NOT on the chunked large-file path of
`importCSVFile`, which pushes every batch's statement unawaited and
only awaits them collectively at completion: with two or more batches
that trace is never strictly sequential. -/
theorem import_batching_amended :
    (∀ (α : Type) (rows : List α) (b : Nat), seqOK (handleImportTrace rows b) = true) ∧
    (∀ (α : Type) (bs : List α), 2 ≤ bs.length → seqOK (importCSVFileTrace bs) = false) := by
  constructor
  · intro α rows b
    exact seqOK_seqTrace (chunksOf b rows)
  · intro α bs hlen
    match bs with
    | [] => simp at hlen
    | [b1] => simp at hlen
    | b1 :: b2 :: t => simp [importCSVFileTrace, seqOK, seqOKAux]

theorem import_batching_amended_witness :
    seqOK (handleImportTrace [(1 : Nat), 2, 3, 4, 5] 2) = true ∧
    (2 ≤ ([(10 : Nat), 20] : List Nat).length ∧
      seqOK (importCSVFileTrace [(10 : Nat), 20]) = false) :=
  ⟨import_batching_amended.1 Nat [1, 2, 3, 4, 5] 2, by decide,
    import_batching_amended.2 Nat [10, 20] (by decide)⟩

/-! ## Chunking lemmas -/

theorem chunksOfAux_flatten {α : Type} :
    ∀ (fuel b : Nat) (l : List α), l.length ≤ fuel → 0 < b →
      (chunksOfAux fuel b l).flatten = l := by
  intro fuel
  induction fuel with
  | zero =>
    intro b l hl _
    have : l = [] := List.length_eq_zero.mp (Nat.le_antisymm hl (Nat.zero_le _))
    subst this; rfl
  | succ f ih =>
    intro b l hl hb
    match l with
    | [] => rfl
    | x :: t =>
      have hdrop : (List.drop b (x :: t)).length ≤ f := by
        simp only [List.length_drop]
        have : (x :: t).length ≤ f + 1 := hl
        omega
      simp only [chunksOfAux, List.flatten_cons, ih b _ hdrop hb,
        List.take_append_drop]

theorem chunksOf_flatten {α : Type} (b : Nat) (l : List α) (hb : 0 < b) :
    (chunksOf b l).flatten = l :=
  chunksOfAux_flatten l.length b l (Nat.le_refl _) hb

theorem foldl_append_eq_flatten {α : Type} :
    ∀ (bs : List (List α)) (init : List α),
      bs.foldl (fun acc batch => acc ++ batch) init = init ++ bs.flatten := by
  intro bs
  induction bs with
  | nil => intro init; simp
  | cons x t ih => intro init; simp [ih, List.append_assoc]

/-- C6: inserting `N` rows in batches of size `b` with `0 < b < N`
leaves the freshly created table with exactly the rows (hence the row
count) of a single unbatched insert of all `N` rows. -/
theorem batched_insert_row_count {α : Type} (rows : List α) (b : Nat)
    (hb : 0 < b) (_hlt : b < rows.length) :
    importBatched rows b = importUnbatched rows ∧
    (importBatched rows b).length = rows.length := by
  have h : importBatched rows b = rows := by
    simp [importBatched, foldl_append_eq_flatten, chunksOf_flatten b rows hb]
  exact ⟨h, by rw [h]⟩

theorem batched_insert_row_count_witness :
    0 < 2 ∧ 2 < ([(1 : Nat), 2, 3, 4, 5] : List Nat).length ∧
    (importBatched [(1 : Nat), 2, 3, 4, 5] 2 = importUnbatched [(1 : Nat), 2, 3, 4, 5] ∧
      (importBatched [(1 : Nat), 2, 3, 4, 5] 2).length = ([(1 : Nat), 2, 3, 4, 5] : List Nat).length) :=
  ⟨by decide, by decide, batched_insert_row_count [1, 2, 3, 4, 5] 2 (by decide) (by decide)⟩

/-! ## Import existence check and empty-file rejection -/

/-- C5 (counterexample): an import request on the large-file path (a
single `File` as data) with the target table `t` already existing and
`overwrite` false does NOT fail — no error is thrown and the database
is modified (the parsed rows are appended to the existing table),
because the `File` branch of `handleImportCSV` runs before the
existence check and `importCSVFile` uses `CREATE TABLE IF NOT
EXISTS`. -/
theorem file_import_skips_exists_check :
    (handleImportCSV demoDB ['t'] (.file [[demoRec]]) [['a']] false false).2 = none ∧
    (handleImportCSV demoDB ['t'] (.file [[demoRec]]) [['a']] false false).1 ≠ demoDB := by
  constructor
  · decide
  · decide

/-- C5 (amended): on the in-memory (row-array) import path, when the
target table already exists and `overwrite` is false, the import
fails with the `Table '<name>' already exists` error naming the
target table and the database is unchanged (the only statement run
before the throw is the catalog probe). The large-file (`File`) path
performs no such check and proceeds into `importCSVFile`. -/
theorem rows_import_exists_error (db : DB) (tableName : List Char)
    (rs : List CSVRecord) (columns : List (List Char)) (av : Bool)
    (hex : (lookupTable db (escQuotes tableName)).isSome = true) :
    handleImportCSV db tableName (.rows rs) columns false av =
      (db, some (tableExistsMsg tableName)) := by
  simp [handleImportCSV, hex]

theorem rows_import_exists_error_witness :
    (lookupTable demoDB (escQuotes ['t'])).isSome = true ∧
    handleImportCSV demoDB ['t'] (.rows [demoRec]) [['a']] false false =
      (demoDB, some (tableExistsMsg ['t'])) :=
  ⟨by decide, rows_import_exists_error demoDB ['t'] [demoRec] [['a']] false (by decide)⟩

/-- C9 (counterexample): the canonical empty file — a zero-byte CSV —
parses to zero data rows but with PapaParse's `UndetectableDelimiter`
error, and the `results.errors` guard of `handleImport` runs BEFORE
the empty check, so the import is rejected with
`Error parsing CSV: ...` and not with the claimed `CSV file is empty`
error (no table is created either way). -/
theorem zero_byte_file_parse_error :
    emptyFileParse.data = [] ∧
    (csvHandleImport demoDB ['u'] emptyFileParse false false).2 ≠ some csvFileIsEmptyMsg ∧
    (csvHandleImport demoDB ['u'] emptyFileParse false false).2 =
      some ("Error parsing CSV: ".toList ++ undetectableDelimiterMsg) ∧
    (csvHandleImport demoDB ['u'] emptyFileParse false false).1 = demoDB := by
  refine ⟨rfl, ?_, ?_, ?_⟩
  · decide
  · decide
  · decide

/-- C9 (amended): a parse yielding zero data rows and no parse errors
is rejected with the `CSV file is empty` error before `onImport` is
called; a parse yielding zero data rows with a parse error (as a
zero-byte file produces, since delimiter auto-detection fails on empty
input) is rejected by the earlier errors guard with
`Error parsing CSV: <message>`. In either case the database is
returned unchanged, so no table is created. -/
theorem empty_parse_rejected_no_table (db : DB) (tableName : List Char)
    (parsed : ParseResult) (ow av : Bool) (hdata : parsed.data = []) :
    (parsed.errors = [] →
      csvHandleImport db tableName parsed ow av = (db, some csvFileIsEmptyMsg)) ∧
    (∀ (e : List Char) (rest : List (List Char)), parsed.errors = e :: rest →
      csvHandleImport db tableName parsed ow av =
        (db, some ("Error parsing CSV: ".toList ++ e))) := by
  constructor
  · intro herr
    unfold csvHandleImport
    rw [herr]
    simp [hdata]
  · intro e rest herr
    unfold csvHandleImport
    rw [herr]

theorem empty_parse_rejected_no_table_witness :
    csvHandleImport demoDB ['u'] ⟨[], [], [['a']]⟩ false false =
      (demoDB, some csvFileIsEmptyMsg) ∧
    csvHandleImport demoDB ['u'] emptyFileParse false false =
      (demoDB, some ("Error parsing CSV: ".toList ++ undetectableDelimiterMsg)) :=
  ⟨(empty_parse_rejected_no_table demoDB ['u'] ⟨[], [], [['a']]⟩ false false rfl).1 rfl,
    (empty_parse_rejected_no_table demoDB ['u'] emptyFileParse false false rfl).2
      undetectableDelimiterMsg [] rfl⟩

/-! ## Cell-list operations -/

/-- C8 (counterexample): `handleDeleteCell` does not preserve
non-emptiness on every cell list — with two cells sharing the id `5`
(possible when two cells are created in the same millisecond, since
ids come from `Date.now()`), deleting id `5` removes both and leaves
the list empty. -/
theorem delete_cell_duplicate_ids_empties :
    ([dupCell, dupCell] : List Cell) ≠ [] ∧
    handleDeleteCell [dupCell, dupCell] ['5'] = [] := by
  constructor
  · decide
  · decide

/-- C8 (amended): deleting the sole remaining cell is rejected and
leaves the list unchanged; adding, updating a query, and the two
execution updates preserve non-emptiness unconditionally; and deleting
from a non-empty list preserves non-emptiness whenever the cell ids are
pairwise distinct (which the UI provides except when two cells are
created in the same millisecond). -/
theorem cell_ops_preserve_nonempty :
    (∀ (cells : List Cell) (cid : List Char), cells.length = 1 →
      handleDeleteCell cells cid = cells) ∧
    (∀ (cells : List Cell) (cid : List Char), cells ≠ [] →
      (cells.map Cell.id).Nodup → handleDeleteCell cells cid ≠ []) ∧
    (∀ (cells : List Cell) (nid : List Char), handleAddCell cells nid ≠ []) ∧
    (∀ (cells : List Cell) (cid q : List Char), cells ≠ [] →
      handleUpdateCellQuery cells cid q ≠ []) ∧
    (∀ (cells : List Cell) (cid : List Char) (b : Bool), cells ≠ [] →
      setCellExecuting cells cid b ≠ []) ∧
    (∀ (cells : List Cell) (cid : List Char) (rs : List ResultRow), cells ≠ [] →
      setCellResults cells cid rs ≠ []) := by
  refine ⟨?_, ?_, ?_, ?_, ?_, ?_⟩
  · intro cells cid h
    simp [handleDeleteCell, h]
  · intro cells cid hne hnodup
    unfold handleDeleteCell
    by_cases hlen : cells.length = 1
    · simpa [hlen] using hne
    · simp only [if_neg hlen]
      match cells, hne with
      | [c1], _ => exact absurd rfl hlen
      | c1 :: c2 :: t, _ =>
        by_cases h1 : c1.id = cid
        · have h2 : ¬(c2.id = cid) := by
            simp only [List.map_cons, List.nodup_cons, List.mem_cons] at hnodup
            intro h2
            exact hnodup.1 (Or.inl (h2.trans h1.symm).symm)
          intro hempty
          rw [List.filter_eq_nil_iff] at hempty
          exact hempty c2 (List.mem_cons_of_mem _ (List.mem_cons_self _ _)) (by simp [h2])
        · intro hempty
          rw [List.filter_eq_nil_iff] at hempty
          exact hempty c1 (List.mem_cons_self _ _) (by simp [h1])
  · intro cells nid
    simp [handleAddCell]
  · intro cells cid q hne
    simpa [handleUpdateCellQuery, List.map_eq_nil_iff] using hne
  · intro cells cid b hne
    simpa [setCellExecuting, List.map_eq_nil_iff] using hne
  · intro cells cid rs hne
    simpa [setCellResults, List.map_eq_nil_iff] using hne

theorem cell_ops_preserve_nonempty_witness :
    handleDeleteCell [dupCell] ['9'] = [dupCell] ∧
    handleDeleteCell [dupCell, otherCell] ['5'] ≠ [] ∧
    handleAddCell [] ['1'] ≠ [] ∧
    handleUpdateCellQuery [dupCell] ['5'] ['x'] ≠ [] ∧
    setCellExecuting [dupCell] ['5'] true ≠ [] ∧
    setCellResults [dupCell] ['5'] [] ≠ [] :=
  ⟨cell_ops_preserve_nonempty.1 [dupCell] ['9'] (by decide),
    cell_ops_preserve_nonempty.2.1 [dupCell, otherCell] ['5'] (by decide) (by decide),
    cell_ops_preserve_nonempty.2.2.1 [] ['1'],
    cell_ops_preserve_nonempty.2.2.2.1 [dupCell] ['5'] ['x'] (by decide),
    cell_ops_preserve_nonempty.2.2.2.2.1 [dupCell] ['5'] true (by decide),
    cell_ops_preserve_nonempty.2.2.2.2.2 [dupCell] ['5'] [] (by decide)⟩

/-! ## Query history -/

/-- C10 (counterexample): executing a COPY-export query appends NO
history entry — the COPY branch of `handleExecuteQuery` returns before
either `setQueryHistory` call — so an execution does not always append
exactly one entry. -/
theorem copy_query_appends_no_history :
    historyAfterExecute [] demoCopyQuery 0 (.ok 1) 5 = [] ∧
    (historyAfterExecute [] demoCopyQuery 0 (.ok 1) 5).length ≠
      ([] : List QueryHistoryItem).length + 1 := by
  constructor
  · decide
  · decide

/-- C10 (amended): every execution of a query that does not match the
COPY-export pattern appends exactly one entry to the history log
(success or failure alike), existing entries are never mutated (the
old log is a prefix of the new), running the same query twice appends
exactly two entries in call order, and the only other history
operation clears the whole log. -/
theorem history_append_per_execution (h : List QueryHistoryItem) (q : List Char)
    (ts : Nat) (o : Except (List Char) Nat) (dur : Nat)
    (hq : isCopyQuery q = false) :
    historyAfterExecute h q ts o dur = h ++ [mkHistoryItem q ts o dur] ∧
    (historyAfterExecute h q ts o dur).length = h.length + 1 ∧
    (historyAfterExecute h q ts o dur).take h.length = h ∧
    (∀ (ts2 : Nat) (o2 : Except (List Char) Nat) (d2 : Nat),
      historyAfterExecute (historyAfterExecute h q ts o dur) q ts2 o2 d2 =
        h ++ [mkHistoryItem q ts o dur, mkHistoryItem q ts2 o2 d2]) ∧
    clearHistory = [] := by
  refine ⟨?_, ?_, ?_, ?_, rfl⟩
  · simp [historyAfterExecute, hq]
  · simp [historyAfterExecute, hq]
  · simp [historyAfterExecute, hq, List.take_left]
  · intro ts2 o2 d2
    simp [historyAfterExecute, hq]

theorem history_append_per_execution_witness :
    isCopyQuery "SELECT 1".toList = false ∧
    historyAfterExecute [] "SELECT 1".toList 7 (.ok 3) 5 =
      [] ++ [mkHistoryItem "SELECT 1".toList 7 (.ok 3) 5] :=
  ⟨by decide,
    (history_append_per_execution [] "SELECT 1".toList 7 (.ok 3) 5 (by decide)).1⟩

/-! ## Double-quote rejection lemmas -/

theorem containsQuote_append_quote (a b : List Char) :
    containsQuote (a ++ '"' :: b) = true := by
  induction a with
  | nil => simp [containsQuote]
  | cons c t ih => simp [containsQuote, ih]

theorem eqTail_of_shape (y post : List Char) (hy : y ≠ [])
    (hyq : ∀ c ∈ y, ¬(c = '"')) :
    eqTail (' ' :: '"' :: (y ++ '"' :: post)) = true := by
  match y, hy with
  | c :: t, _ =>
    have hc : ¬(c = '"') := hyq c (List.mem_cons_self _ _)
    have hdrop : (' ' :: '"' :: ((c :: t) ++ '"' :: post)).dropWhile isWS =
        '"' :: ((c :: t) ++ '"' :: post) := by
      rw [List.dropWhile_cons_of_pos (by decide), List.dropWhile_cons_of_neg (by decide)]
    unfold eqTail
    rw [hdrop]
    simp only [List.cons_append, nonQuoteThenQuote, decide_eq_false hc,
      Bool.not_false, Bool.true_and]
    exact containsQuote_append_quote t post

theorem dotStarEq_append (x rest : List Char) (hx : ∀ c ∈ x, isNL c = false)
    (hrest : eqTail rest = true) :
    dotStarEq (x ++ '=' :: rest) = true := by
  induction x with
  | nil => simp [dotStarEq, hrest]
  | cons c t ih =>
    have hc := hx c (List.mem_cons_self _ _)
    have ht := ih fun d hd => hx d (List.mem_cons_of_mem _ hd)
    simp [dotStarEq, hc, ht]

theorem wsDotStarEq_of_dotStarEq (l : List Char) (h : dotStarEq l = true) :
    wsDotStarEq l = true := by
  match l with
  | [] => exact Bool.noConfusion h
  | c :: rest => simp [wsDotStarEq, h]

theorem matchWhereAt_shape (rest : List Char) (h : wsDotStarEq rest = true) :
    matchWhereAt ("WHERE ".toList ++ rest) = true := by
  show wsDotStarEq rest = true
  exact h

theorem hasWherePattern_of_matchWhereAt (l : List Char) (h : matchWhereAt l = true) :
    hasWherePattern l = true := by
  match l with
  | [] => exact Bool.noConfusion h
  | c :: rest => simp [hasWherePattern, h]

theorem hasWherePattern_append (pre l : List Char) (h : hasWherePattern l = true) :
    hasWherePattern (pre ++ l) = true := by
  induction pre with
  | nil => simpa using h
  | cons c t ih => simp [hasWherePattern, ih]

/-- C7: a query containing a double-quoted string comparison — any
text, then `WHERE`, a space, a left-hand side without line
terminators, ` = "`, a non-empty quote-free literal, `"`, then any
text — is rejected by `validateSQL` before any engine call (the
validator is pure and the editor only calls `onExecute` on a valid
result), with the single-quote error message and a suggestion that is
the query with its double-quoted runs rewritten to single quotes. -/
theorem validateSQL_rejects_double_quoted (sql pre x y post : List Char)
    (hsql : sql =
      pre ++ ("WHERE ".toList ++ (x ++ (" = \"".toList ++ (y ++ '"' :: post)))))
    (hx : ∀ c ∈ x, isNL c = false)
    (hy : y ≠ []) (hyq : ∀ c ∈ y, ¬(c = '"')) :
    validateSQL sql = ⟨false, some doubleQuoteErrorMsg, some (sqRewrite sql), none⟩ := by
  have hpat : hasWherePattern sql = true := by
    subst hsql
    refine hasWherePattern_append pre _ (hasWherePattern_of_matchWhereAt _ ?_)
    refine matchWhereAt_shape _ ?_
    have heq : " = \"".toList ++ (y ++ '"' :: post) =
        ' ' :: '=' :: (' ' :: '"' :: (y ++ '"' :: post)) := rfl
    rw [heq]
    have hx1 : x ++ ' ' :: '=' :: (' ' :: '"' :: (y ++ '"' :: post)) =
        (x ++ [' ']) ++ '=' :: (' ' :: '"' :: (y ++ '"' :: post)) := by
      simp
    rw [hx1]
    refine wsDotStarEq_of_dotStarEq _ (dotStarEq_append _ _ ?_ ?_)
    · intro c hc
      rcases List.mem_append.mp hc with hc | hc
      · exact hx c hc
      · simp only [List.mem_singleton] at hc
        subst hc
        decide
    · exact eqTail_of_shape y post hy hyq
  simp [validateSQL, hpat]

theorem validateSQL_rejects_double_quoted_witness :
    demoSQL = "SELECT * FROM t ".toList ++
      ("WHERE ".toList ++ ("x".toList ++ (" = \"".toList ++ ("y".toList ++ '"' :: [])))) ∧
    validateSQL demoSQL = ⟨false, some doubleQuoteErrorMsg, some demoSQLFixed, none⟩ := by
  have h := validateSQL_rejects_double_quoted demoSQL "SELECT * FROM t ".toList
    "x".toList "y".toList [] (by decide) (by decide) (by decide) (by decide)
  exact ⟨by decide, by rw [h]; decide⟩

end SqlLab
